import Mathlib

/-!
Verification of the Flare node's consensus-core slice against its
natural-language specification.

The Go source is shallowly embedded: node and transaction identifiers
(`ids.ID`, `ids.ShortID`) become `Nat`, `uint64` values become `Nat` with
explicit overflow accounting where the source checks overflow, Go `error`
returns become `Except`/`Option`, and stateful methods become explicit
state-passing functions.  Components whose deciding code lives outside the
provided source slice (the `snow/choices` status enum, `utils/math`
arithmetic helpers, the vertex cache of the `state` package) are modelled
from the specification and from the source's own comments; each such
definition says so in its doc comment.
-/

deriving instance DecidableEq for Except

namespace Flare

/-- Modelled from the spec: the `snow/choices` package is not in the provided
source slice.  Spec §3 defines a status as one of Unknown, Processing,
Accepted, Rejected. -/
inductive Status where
  | Unknown
  | Processing
  | Accepted
  | Rejected
deriving DecidableEq, Repr

/-- Modelled from the spec: `choices.Status.Fetched` is not in the provided
source slice.  Per spec §3 lifecycle, a vertex is fetched once its bytes are
known, i.e. in status Processing, Accepted or Rejected. -/
def Status.Fetched : Status → Bool
  | .Unknown => false
  | _ => true

/-! ## Weight tracker (src/snow/engine/common/tracker/weight_tracker.go) -/

/-- Modelled from the spec: `utils/math.Add64` is not in the provided source
slice.  Spec §4.B: addition of two `uint64` weights fails with Overflow when
the sum exceeds the 64-bit range; otherwise it returns the sum. -/
def Add64 (a b : Nat) : Except Unit Nat :=
  if a + b < 2 ^ 64 then .ok (a + b) else .error ()

/-- Modelled from the spec: `utils/math.Sub64` is not in the provided source
slice.  The tracker's own comment documents that `Sub64 returns 0 on error`,
and spec §4.B says `remove_weight` saturates at 0: the result is `a - b`
together with no error when `b ≤ a`, and `0` together with an error
otherwise. -/
def Sub64 (a b : Nat) : Nat × Option Unit :=
  if b ≤ a then (a - b, none) else (0, some ())

/-- State of `weightTracker`
(src/snow/engine/common/tracker/weight_tracker.go, lines 27-32).  The beacon
validator set is modelled as a map from node ID to an optional weight, mirroring
what the tracker reads through `validation.Set.GetWeight`. -/
structure WeightTracker where
  beacons : Nat → Option Nat
  startupAlpha : Nat
  weight : Nat
  enoughConnectedWeight : Bool

/-- Embedding of `weightTracker.AddWeightForNode`
(src/snow/engine/common/tracker/weight_tracker.go, lines 34-51).  On an
`Add64` overflow the method returns the error before assigning the new
weight, so the receiver is unchanged; this embedding returns `.error` and the
caller keeps the old state. -/
def addWeightForNode (wt : WeightTracker) (nodeID : Nat) :
    Except Unit WeightTracker :=
  if wt.enoughConnectedWeight then .ok wt
  else
    match wt.beacons nodeID with
    | none => .ok wt
    | some w =>
      match Add64 w wt.weight with
      | .error e => .error e
      | .ok sum =>
        let wt := { wt with weight := sum }
        if wt.weight ≥ wt.startupAlpha then
          .ok { wt with enoughConnectedWeight := true }
        else
          .ok wt

/-- Embedding of `weightTracker.RemoveWeightForNode`
(src/snow/engine/common/tracker/weight_tracker.go, lines 53-67).  The Go
method discards the `Sub64` error and keeps the saturated value; it never
touches `enoughConnectedWeight` and always returns nil. -/
def removeWeightForNode (wt : WeightTracker) (nodeID : Nat) :
    Except Unit WeightTracker :=
  match wt.beacons nodeID with
  | some w => .ok { wt with weight := (Sub64 wt.weight w).1 }
  | none => .ok wt

/-- One call against the tracker, for reasoning about call sequences. -/
inductive TrackerOp where
  | add (nodeID : Nat)
  | remove (nodeID : Nat)
deriving DecidableEq

/-- Applies one tracker call; when the call errors the Go method has not yet
mutated the receiver, so the state is unchanged. -/
def applyTrackerOp (wt : WeightTracker) : TrackerOp → WeightTracker
  | .add n =>
    match addWeightForNode wt n with
    | .ok wt2 => wt2
    | .error _ => wt
  | .remove n =>
    match removeWeightForNode wt n with
    | .ok wt2 => wt2
    | .error _ => wt

/-- Applies a sequence of tracker calls in order. -/
def applyTrackerOps (wt : WeightTracker) (ops : List TrackerOp) : WeightTracker :=
  ops.foldl applyTrackerOp wt

theorem applyTrackerOp_enough (wt : WeightTracker) (op : TrackerOp)
    (h : wt.enoughConnectedWeight = true) :
    (applyTrackerOp wt op).enoughConnectedWeight = true := by
  cases op with
  | add n => simp [applyTrackerOp, addWeightForNode, h]
  | remove n =>
    simp only [applyTrackerOp, removeWeightForNode]
    cases wt.beacons n <;> simp [h]

/-- C5: `EnoughConnectedWeight` is a one-way latch.  When the flag is not yet
set and the node is a known beacon whose weight adds without 64-bit overflow,
`AddWeightForNode` sets the flag exactly when the cumulative connected weight
reaches `startupAlpha`; and once the flag is set, no sequence of further
`AddWeightForNode` / `RemoveWeightForNode` calls ever clears it, even if the
tracked weight falls below `startupAlpha`. -/
theorem enoughConnectedWeight_latch (wt : WeightTracker) (n w : Nat)
    (ops : List TrackerOp)
    (hset : wt.enoughConnectedWeight = false)
    (hw : wt.beacons n = some w)
    (hnoof : w + wt.weight < 2 ^ 64) :
    (∃ wt2, addWeightForNode wt n = .ok wt2 ∧
      wt2.weight = w + wt.weight ∧
      (wt2.enoughConnectedWeight = true ↔ wt.startupAlpha ≤ w + wt.weight)) ∧
    (∀ wt0 : WeightTracker, wt0.enoughConnectedWeight = true →
      (applyTrackerOps wt0 ops).enoughConnectedWeight = true) := by
  constructor
  · simp only [addWeightForNode, hset, hw, Add64, if_pos hnoof, Bool.false_eq_true,
      if_false]
    by_cases hα : wt.startupAlpha ≤ w + wt.weight
    · exact ⟨{ wt with weight := w + wt.weight, enoughConnectedWeight := true },
        by simp [hα], rfl, by simp [hα]⟩
    · exact ⟨{ wt with weight := w + wt.weight },
        by simp [hα, hset], rfl, by simp [hα, hset]⟩
  · intro wt0 h0
    induction ops generalizing wt0 with
    | nil => exact h0
    | cons op rest ih =>
      exact ih _ (applyTrackerOp_enough wt0 op h0)

/-- Concrete tracker used by the latch witness. -/
def wtLatchW : WeightTracker :=
  { beacons := fun _ => some 10, startupAlpha := 5, weight := 0,
    enoughConnectedWeight := false }

theorem enoughConnectedWeight_latch_witness :
    wtLatchW.enoughConnectedWeight = false ∧ wtLatchW.beacons 0 = some 10 ∧
      10 + wtLatchW.weight < 2 ^ 64 ∧
      ((∃ wt2, addWeightForNode wtLatchW 0 = .ok wt2 ∧
        wt2.weight = 10 + wtLatchW.weight ∧
        (wt2.enoughConnectedWeight = true ↔
          wtLatchW.startupAlpha ≤ 10 + wtLatchW.weight)) ∧
      (∀ wt0 : WeightTracker, wt0.enoughConnectedWeight = true →
        (applyTrackerOps wt0 [.remove 0]).enoughConnectedWeight = true)) :=
  ⟨rfl, rfl, by decide,
    enoughConnectedWeight_latch wtLatchW 0 10 [.remove 0] rfl rfl (by decide)⟩

/-- C8: `RemoveWeightForNode` never returns a non-nil error, and the tracked
weight saturates at 0: when the node's beacon weight exceeds the tracked
weight, the new tracked weight is 0 instead of underflowing or failing. -/
theorem removeWeightForNode_saturates (wt : WeightTracker) (n : Nat) :
    (∃ wt2, removeWeightForNode wt n = .ok wt2) ∧
    (∀ w, wt.beacons n = some w → wt.weight < w →
      removeWeightForNode wt n = .ok { wt with weight := 0 }) := by
  constructor
  · simp only [removeWeightForNode]
    cases wt.beacons n <;> exact ⟨_, rfl⟩
  · intro w hw hlt
    simp [removeWeightForNode, hw, Sub64, Nat.not_le.mpr hlt]

/-- Concrete tracker used by the saturation witness. -/
def wtRemoveW : WeightTracker :=
  { beacons := fun _ => some 10, startupAlpha := 5, weight := 3,
    enoughConnectedWeight := true }

theorem removeWeightForNode_saturates_witness :
    wtRemoveW.beacons 0 = some 10 ∧ wtRemoveW.weight < 10 ∧
      ((∃ wt2, removeWeightForNode wtRemoveW 0 = .ok wt2) ∧
        removeWeightForNode wtRemoveW 0 = .ok { wtRemoveW with weight := 0 }) :=
  ⟨rfl, by decide,
    (removeWeightForNode_saturates wtRemoveW 0).1,
    (removeWeightForNode_saturates wtRemoveW 0).2 10 rfl (by decide)⟩

/-! ## Event dispatcher (src/snow/triggers/dispatcher.go) -/

/-- Capability and behaviour of one registered handler
(src/snow/triggers/dispatcher.go, lines 17-23).  Whether the Go value stored
in `handlerFunc` implements each of the `snow.Acceptor` / `snow.Rejector` /
`snow.Issuer` interfaces is a fact about the registered value, modelled as
three booleans; the outcome of each interface call on the event at hand is
modelled as an optional error code. -/
structure Handler where
  isAcceptor : Bool
  isRejector : Bool
  isIssuer : Bool
  acceptErr : Option Nat
  rejectErr : Option Nat
  issueErr : Option Nat
  dieOnError : Bool
deriving DecidableEq, Repr

/-- State of `EventDispatcher` (src/snow/triggers/dispatcher.go, lines
26-31).  Go stores each chain's handlers in a `map[string]handler`; the list
keeps the entries in registration order (the order of successful
`RegisterChain` calls), which the Go map itself does not retain — its
iteration order is unspecified, so event functions below take the iteration
order as an extra argument constrained to be a permutation of the entries. -/
structure EventDispatcher where
  chainHandlers : Nat → Option (List (String × Handler))

/-- Embedding of `EventDispatcher.RegisterChain`
(src/snow/triggers/dispatcher.go, lines 114-133): refuses a duplicate
identifier on the same chain, otherwise records the handler. -/
def registerChain (ed : EventDispatcher) (chainID : Nat) (identifier : String)
    (h : Handler) : Except Unit EventDispatcher :=
  let events := (ed.chainHandlers chainID).getD []
  if events.any (fun p => p.1 = identifier) then .error ()
  else .ok { chainHandlers := fun c =>
    if c = chainID then some (events ++ [(identifier, h)])
    else ed.chainHandlers c }

/-- Embedding of the loop of `EventDispatcher.Accept`
(src/snow/triggers/dispatcher.go, lines 51-63) over the map entries in the
given iteration order: skips entries not implementing `snow.Acceptor`,
invokes the rest in order, logs a failure and keeps going unless the handler
was registered with `dieOnError`, in which case the error is returned at
once.  Returns the identifiers invoked, in invocation order, and the
returned error. -/
def dispatchAccept : List (String × Handler) → List String × Option Nat
  | [] => ([], none)
  | (i, h) :: rest =>
    if h.isAcceptor = false then dispatchAccept rest
    else
      match h.acceptErr with
      | some e =>
        if h.dieOnError then ([i], some e)
        else
          let r := dispatchAccept rest
          (i :: r.1, r.2)
      | none =>
        let r := dispatchAccept rest
        (i :: r.1, r.2)

/-- Embedding of the loop of `EventDispatcher.Reject`
(src/snow/triggers/dispatcher.go, lines 76-86): invokes every entry
implementing `snow.Rejector`; failures are only logged and the method always
returns nil. -/
def dispatchReject : List (String × Handler) → List String × Option Nat
  | [] => ([], none)
  | (i, h) :: rest =>
    if h.isRejector = false then dispatchReject rest
    else
      let r := dispatchReject rest
      (i :: r.1, r.2)

/-- Embedding of the loop of `EventDispatcher.Issue`
(src/snow/triggers/dispatcher.go, lines 98-108): invokes every entry
implementing `snow.Issuer`; failures are only logged and the method always
returns nil. -/
def dispatchIssue : List (String × Handler) → List String × Option Nat
  | [] => ([], none)
  | (i, h) :: rest =>
    if h.isIssuer = false then dispatchIssue rest
    else
      let r := dispatchIssue rest
      (i :: r.1, r.2)

/-- Embedding of `EventDispatcher.Accept` (src/snow/triggers/dispatcher.go,
lines 43-65): a chain with no registered handlers returns nil at once;
otherwise the handler map is walked in iteration order [order]. -/
def acceptEvent (ed : EventDispatcher) (chainID : Nat)
    (order : List (String × Handler)) : List String × Option Nat :=
  match ed.chainHandlers chainID with
  | none => ([], none)
  | some _ => dispatchAccept order

/-- Embedding of `EventDispatcher.Reject` (src/snow/triggers/dispatcher.go,
lines 68-87). -/
def rejectEvent (ed : EventDispatcher) (chainID : Nat)
    (order : List (String × Handler)) : List String × Option Nat :=
  match ed.chainHandlers chainID with
  | none => ([], none)
  | some _ => dispatchReject order

/-- Embedding of `EventDispatcher.Issue` (src/snow/triggers/dispatcher.go,
lines 90-109). -/
def issueEvent (ed : EventDispatcher) (chainID : Nat)
    (order : List (String × Handler)) : List String × Option Nat :=
  match ed.chainHandlers chainID with
  | none => ([], none)
  | some _ => dispatchIssue order

theorem dispatchAccept_noDie (l : List (String × Handler))
    (h : ∀ p ∈ l, p.2.isAcceptor = true → p.2.dieOnError = true →
      p.2.acceptErr = none) :
    (dispatchAccept l).1 = (l.filter (fun p => p.2.isAcceptor)).map Prod.fst := by
  induction l with
  | nil => rfl
  | cons p rest ih =>
    have hrest := fun q hq => h q (List.mem_cons_of_mem p hq)
    obtain ⟨i, hd⟩ := p
    cases hacc : hd.isAcceptor with
    | false => simp [dispatchAccept, hacc, ih hrest]
    | true =>
      cases herr : hd.acceptErr with
      | none => simp [dispatchAccept, hacc, herr, ih hrest]
      | some e =>
        cases hdie : hd.dieOnError with
        | false => simp [dispatchAccept, hacc, herr, hdie, ih hrest]
        | true =>
          exact absurd (h (i, hd) (List.mem_cons_self _ _) hacc hdie)
            (by simp [herr])

theorem dispatchAccept_err_iff (l : List (String × Handler)) :
    (dispatchAccept l).2 ≠ none ↔
      ∃ p ∈ l, p.2.isAcceptor = true ∧ p.2.dieOnError = true ∧
        p.2.acceptErr ≠ none := by
  induction l with
  | nil => simp [dispatchAccept]
  | cons p rest ih =>
    obtain ⟨i, hd⟩ := p
    cases hacc : hd.isAcceptor with
    | false => simp [dispatchAccept, hacc, ih]
    | true =>
      cases herr : hd.acceptErr with
      | none => simp [dispatchAccept, hacc, herr, ih]
      | some e =>
        cases hdie : hd.dieOnError with
        | false => simp [dispatchAccept, hacc, herr, hdie, ih]
        | true => simp [dispatchAccept, hacc, herr, hdie]

theorem dispatchReject_spec (l : List (String × Handler)) :
    (dispatchReject l).1 = (l.filter (fun p => p.2.isRejector)).map Prod.fst ∧
      (dispatchReject l).2 = none := by
  induction l with
  | nil => exact ⟨rfl, rfl⟩
  | cons p rest ih =>
    obtain ⟨i, hd⟩ := p
    cases hrej : hd.isRejector with
    | false => simp [dispatchReject, hrej, ih.1, ih.2]
    | true => simp [dispatchReject, hrej, ih.1, ih.2]

theorem dispatchIssue_spec (l : List (String × Handler)) :
    (dispatchIssue l).1 = (l.filter (fun p => p.2.isIssuer)).map Prod.fst ∧
      (dispatchIssue l).2 = none := by
  induction l with
  | nil => exact ⟨rfl, rfl⟩
  | cons p rest ih =>
    obtain ⟨i, hd⟩ := p
    cases hiss : hd.isIssuer with
    | false => simp [dispatchIssue, hiss, ih.1, ih.2]
    | true => simp [dispatchIssue, hiss, ih.1, ih.2]

/-- Handler implementing all three interfaces with no failures, used by the
dispatcher-order counterexample. -/
def handlerBoth : Handler :=
  { isAcceptor := true, isRejector := true, isIssuer := true,
    acceptErr := none, rejectErr := none, issueErr := none, dieOnError := false }

/-- Dispatcher with handlers a then b registered on chain 0, used by the
dispatcher-order counterexample. -/
def edOrderW : EventDispatcher :=
  { chainHandlers := fun c =>
    if c = 0 then some [("a", handlerBoth), ("b", handlerBoth)] else none }

/-- C3 counterexample: handlers a, b were registered in that order on chain 0
and both implement Acceptor; the iteration order b, a is an admissible Go map
iteration order (a permutation of the registered entries), and under it
Accept invokes b before a — not registration order. -/
theorem dispatcher_order_counterexample :
    edOrderW.chainHandlers 0 = some [("a", handlerBoth), ("b", handlerBoth)] ∧
    List.Perm [("b", handlerBoth), ("a", handlerBoth)]
      [("a", handlerBoth), ("b", handlerBoth)] ∧
    (acceptEvent edOrderW 0 [("b", handlerBoth), ("a", handlerBoth)]).1 ≠
      (([("a", handlerBoth), ("b", handlerBoth)] : List (String × Handler)).filter
        (fun p => p.2.isAcceptor)).map Prod.fst := by
  refine ⟨rfl, ?_, ?_⟩ <;> decide

/-- C3 (amended): on each event the dispatcher invokes exactly the chain's
registered handlers implementing the matching interface, each once, in the
map's iteration order — some permutation of registration order, but not
necessarily registration order itself; for Accept this holds provided no
die-on-error acceptor fails (such a failure stops the loop early). -/
theorem dispatcher_invokes_matching (ed : EventDispatcher) (chainID : Nat)
    (regs order : List (String × Handler))
    (hreg : ed.chainHandlers chainID = some regs)
    (hperm : order.Perm regs) :
    ((∀ p ∈ regs, p.2.isAcceptor = true → p.2.dieOnError = true →
        p.2.acceptErr = none) →
      (acceptEvent ed chainID order).1.Perm
        ((regs.filter (fun p => p.2.isAcceptor)).map Prod.fst)) ∧
    (rejectEvent ed chainID order).1.Perm
      ((regs.filter (fun p => p.2.isRejector)).map Prod.fst) ∧
    (issueEvent ed chainID order).1.Perm
      ((regs.filter (fun p => p.2.isIssuer)).map Prod.fst) := by
  refine ⟨?_, ?_, ?_⟩
  · intro hnd
    simp only [acceptEvent, hreg]
    rw [dispatchAccept_noDie order (fun q hq => hnd q (hperm.mem_iff.mp hq))]
    exact (hperm.filter _).map Prod.fst
  · simp only [rejectEvent, hreg]
    rw [(dispatchReject_spec order).1]
    exact (hperm.filter _).map Prod.fst
  · simp only [issueEvent, hreg]
    rw [(dispatchIssue_spec order).1]
    exact (hperm.filter _).map Prod.fst

/-- Dispatcher used by the C3 and C4 witnesses. -/
def edPlainW : EventDispatcher :=
  { chainHandlers := fun c => if c = 0 then some [("a", handlerBoth)] else none }

theorem dispatcher_invokes_matching_witness :
    edPlainW.chainHandlers 0 = some [("a", handlerBoth)] ∧
    List.Perm [("a", handlerBoth)] [("a", handlerBoth)] ∧
    (((∀ p ∈ [("a", handlerBoth)], p.2.isAcceptor = true →
          p.2.dieOnError = true → p.2.acceptErr = none) →
        (acceptEvent edPlainW 0 [("a", handlerBoth)]).1.Perm
          ((([("a", handlerBoth)] : List (String × Handler)).filter
            (fun p => p.2.isAcceptor)).map Prod.fst)) ∧
      (rejectEvent edPlainW 0 [("a", handlerBoth)]).1.Perm
        ((([("a", handlerBoth)] : List (String × Handler)).filter
          (fun p => p.2.isRejector)).map Prod.fst) ∧
      (issueEvent edPlainW 0 [("a", handlerBoth)]).1.Perm
        ((([("a", handlerBoth)] : List (String × Handler)).filter
          (fun p => p.2.isIssuer)).map Prod.fst)) :=
  ⟨rfl, by decide,
    dispatcher_invokes_matching edPlainW 0 [("a", handlerBoth)]
      [("a", handlerBoth)] rfl (by decide)⟩

/-- C4: Accept returns a non-nil error exactly when some handler registered
with dieOnError implements Acceptor and its Accept call fails; errors of
other handlers are only logged, Reject and Issue always return nil, and a
chain with no registered handlers returns nil for every event. -/
theorem dispatcher_accept_error_iff (ed : EventDispatcher) (chainID : Nat)
    (regs order : List (String × Handler))
    (hreg : ed.chainHandlers chainID = some regs)
    (hperm : order.Perm regs) :
    ((acceptEvent ed chainID order).2 ≠ none ↔
      ∃ p ∈ regs, p.2.isAcceptor = true ∧ p.2.dieOnError = true ∧
        p.2.acceptErr ≠ none) ∧
    (rejectEvent ed chainID order).2 = none ∧
    (issueEvent ed chainID order).2 = none ∧
    ∀ c o2, ed.chainHandlers c = none →
      (acceptEvent ed c o2).2 = none ∧ (rejectEvent ed c o2).2 = none ∧
        (issueEvent ed c o2).2 = none := by
  refine ⟨?_, ?_, ?_, ?_⟩
  · simp only [acceptEvent, hreg]
    rw [dispatchAccept_err_iff order]
    constructor
    · rintro ⟨p, hp, h1, h2, h3⟩
      exact ⟨p, hperm.mem_iff.mp hp, h1, h2, h3⟩
    · rintro ⟨p, hp, h1, h2, h3⟩
      exact ⟨p, hperm.mem_iff.mpr hp, h1, h2, h3⟩
  · simp only [rejectEvent, hreg]
    exact (dispatchReject_spec order).2
  · simp only [issueEvent, hreg]
    exact (dispatchIssue_spec order).2
  · intro c o2 hc
    simp [acceptEvent, rejectEvent, issueEvent, hc]

theorem dispatcher_accept_error_iff_witness :
    edPlainW.chainHandlers 0 = some [("a", handlerBoth)] ∧
    List.Perm [("a", handlerBoth)] [("a", handlerBoth)] ∧
    (((acceptEvent edPlainW 0 [("a", handlerBoth)]).2 ≠ none ↔
        ∃ p ∈ [("a", handlerBoth)], p.2.isAcceptor = true ∧
          p.2.dieOnError = true ∧ p.2.acceptErr ≠ none) ∧
      (rejectEvent edPlainW 0 [("a", handlerBoth)]).2 = none ∧
      (issueEvent edPlainW 0 [("a", handlerBoth)]).2 = none ∧
      ∀ c o2, edPlainW.chainHandlers c = none →
        (acceptEvent edPlainW c o2).2 = none ∧
          (rejectEvent edPlainW c o2).2 = none ∧
          (issueEvent edPlainW c o2).2 = none) :=
  ⟨rfl, by decide,
    dispatcher_accept_error_iff edPlainW 0 [("a", handlerBoth)]
      [("a", handlerBoth)] rfl (by decide)⟩

/-! ## Outbound message throttler
(src/network/throttling/no_inbound_msg_throttler.go, second embedded file:
outbound throttler, lines 43-187 of that file) -/

/-- Wrapping subtraction, mirroring Go `uint64` subtraction for operands
below `2 ^ 64`. -/
def wsub (a b : Nat) : Nat := if b ≤ a then a - b else a + 2 ^ 64 - b

/-- Wrapping addition, mirroring Go `uint64` addition. -/
def wadd (a b : Nat) : Nat := (a + b) % 2 ^ 64

theorem wsub_of_le {a b : Nat} (h : b ≤ a) : wsub a b = a - b := if_pos h

theorem wadd_of_lt {a b : Nat} (h : a + b < 2 ^ 64) : wadd a b = a + b :=
  Nat.mod_eq_of_lt h

/-- Throttler-relevant facts of a `message.OutboundMessage`: whether
throttling is bypassed, and `len(msg.Bytes())`. -/
structure OutboundMessage where
  bypassThrottling : Bool
  size : Nat

/-- State of the `commonMsgThrottler` embedded in `outboundMsgThrottler`.
The two Go maps are modelled as total functions defaulting to 0: a read of a
missing key yields 0 and the source's delete-when-zero equals storing 0.
`validatorWeight` models what the throttler reads through
`validation.Set.GetWeight`. -/
structure OutboundThrottler where
  maxVdrBytes : Nat
  remainingVdrBytes : Nat
  remainingAtLargeBytes : Nat
  nodeMaxAtLargeBytes : Nat
  nodeToVdrBytesUsed : Nat → Nat
  nodeToAtLargeBytesUsed : Nat → Nat
  validatorWeight : Nat → Option Nat

/-- Local `atLargeBytesUsed` of `outboundMsgThrottler.Acquire` (lines
101-108): as many bytes as possible from the at-large allocation, bounded by
the per-node cap and by what remains.  `math.Min64` of the three bounds. -/
def atLargeBytesUsed (t : OutboundThrottler) (msg : OutboundMessage)
    (nodeID : Nat) : Nat :=
  min msg.size
    (min (wsub t.nodeMaxAtLargeBytes (t.nodeToAtLargeBytesUsed nodeID))
      t.remainingAtLargeBytes)

/-- Local `vdrAllocationSize` of Acquire (lines 113-117).  The source
computes `uint64(float64(maxVdrBytes) * float64(weight) / float64(W))` in
binary64 floating point; the rounded quotient is abstracted as the function
[alloc] of the node's weight — no claim proved here depends on its value. -/
def vdrAllocationSize (alloc : Nat → Nat) (t : OutboundThrottler)
    (nodeID : Nat) : Nat :=
  match t.validatorWeight nodeID with
  | some w => if w ≠ 0 then alloc w else 0
  | none => 0

/-- Local `vdrBytesAllowed` of Acquire (lines 118-127): zero when the node
already uses at least its validator allocation, else the difference. -/
def vdrBytesAllowed (alloc : Nat → Nat) (t : OutboundThrottler)
    (nodeID : Nat) : Nat :=
  let a := vdrAllocationSize alloc t nodeID
  let used := t.nodeToVdrBytesUsed nodeID
  if a ≤ used then 0 else wsub a used

/-- Local `vdrBytesUsed` of Acquire (line 128): `math.Min64` of the
remaining validator allocation, the bytes still needed after the at-large
take, and the node's allowance. -/
def vdrBytesUsed (alloc : Nat → Nat) (t : OutboundThrottler)
    (msg : OutboundMessage) (nodeID : Nat) : Nat :=
  min t.remainingVdrBytes
    (min (wsub msg.size (atLargeBytesUsed t msg nodeID))
      (vdrBytesAllowed alloc t nodeID))

/-- Embedding of `outboundMsgThrottler.Acquire` (lines 90-151): returns
whether the message may be queued, together with the new throttler state.
Metrics calls are omitted (they do not touch the throttling state). -/
def acquire (alloc : Nat → Nat) (t : OutboundThrottler)
    (msg : OutboundMessage) (nodeID : Nat) : Bool × OutboundThrottler :=
  if msg.bypassThrottling then (true, t)
  else
    let A := atLargeBytesUsed t msg nodeID
    let V := vdrBytesUsed alloc t msg nodeID
    if wsub (wsub msg.size A) V ≠ 0 then (false, t)
    else
      let t1 :=
        if A > 0 then
          { t with
            remainingAtLargeBytes := wsub t.remainingAtLargeBytes A,
            nodeToAtLargeBytesUsed := fun m =>
              if m = nodeID then wadd (t.nodeToAtLargeBytesUsed m) A
              else t.nodeToAtLargeBytesUsed m }
        else t
      let t2 :=
        if V > 0 then
          { t1 with
            remainingVdrBytes := wsub t1.remainingVdrBytes V,
            nodeToVdrBytesUsed := fun m =>
              if m = nodeID then wadd (t1.nodeToVdrBytesUsed m) V
              else t1.nodeToVdrBytesUsed m }
        else t1
      (true, t2)

/-- Local `vdrBytesToReturn` of `outboundMsgThrottler.Release` (lines
167-171). -/
def vdrBytesToReturn (t : OutboundThrottler) (msg : OutboundMessage)
    (nodeID : Nat) : Nat :=
  min msg.size (t.nodeToVdrBytesUsed nodeID)

/-- Local `atLargeBytesToReturn` of Release (lines 178-180). -/
def atLargeBytesToReturn (t : OutboundThrottler) (msg : OutboundMessage)
    (nodeID : Nat) : Nat :=
  wsub msg.size (vdrBytesToReturn t msg nodeID)

/-- Embedding of `outboundMsgThrottler.Release` (lines 153-187). -/
def release (t : OutboundThrottler) (msg : OutboundMessage)
    (nodeID : Nat) : OutboundThrottler :=
  if msg.bypassThrottling then t
  else
    let R := vdrBytesToReturn t msg nodeID
    let t1 := { t with
      nodeToVdrBytesUsed := fun m =>
        if m = nodeID then wsub (t.nodeToVdrBytesUsed m) R
        else t.nodeToVdrBytesUsed m,
      remainingVdrBytes := wadd t.remainingVdrBytes R }
    let ALR := atLargeBytesToReturn t msg nodeID
    { t1 with
      remainingAtLargeBytes := wadd t1.remainingAtLargeBytes ALR,
      nodeToAtLargeBytesUsed := fun m =>
        if m = nodeID then wsub (t1.nodeToAtLargeBytesUsed m) ALR
        else t1.nodeToAtLargeBytesUsed m }

theorem atLargeBytesUsed_le_size (t : OutboundThrottler)
    (msg : OutboundMessage) (n : Nat) :
    atLargeBytesUsed t msg n ≤ msg.size :=
  min_le_left _ _

theorem atLargeBytesUsed_le_remaining (t : OutboundThrottler)
    (msg : OutboundMessage) (n : Nat) :
    atLargeBytesUsed t msg n ≤ t.remainingAtLargeBytes :=
  le_trans (min_le_right _ _) (min_le_right _ _)

theorem vdrBytesUsed_le_remaining (alloc : Nat → Nat) (t : OutboundThrottler)
    (msg : OutboundMessage) (n : Nat) :
    vdrBytesUsed alloc t msg n ≤ t.remainingVdrBytes :=
  min_le_left _ _

theorem vdrBytesUsed_le_needed (alloc : Nat → Nat) (t : OutboundThrottler)
    (msg : OutboundMessage) (n : Nat) :
    vdrBytesUsed alloc t msg n ≤ wsub msg.size (atLargeBytesUsed t msg n) :=
  le_trans (min_le_right _ _) (min_le_left _ _)

theorem acquire_false_eq (alloc : Nat → Nat) (t : OutboundThrottler)
    (msg : OutboundMessage) (n : Nat)
    (hf : (acquire alloc t msg n).1 = false) :
    (acquire alloc t msg n).2 = t := by
  by_cases hbp : msg.bypassThrottling
  · simp [acquire, hbp] at hf
  · by_cases hc : wsub (wsub msg.size (atLargeBytesUsed t msg n))
        (vdrBytesUsed alloc t msg n) ≠ 0
    · simp [acquire, hbp, hc]
    · simp [acquire, hbp, hc] at hf

theorem acquire_true_fields (alloc : Nat → Nat) (t : OutboundThrottler)
    (msg : OutboundMessage) (n : Nat)
    (hbp : msg.bypassThrottling = false)
    (husers : t.nodeToVdrBytesUsed n + msg.size < 2 ^ 64)
    (ht : (acquire alloc t msg n).1 = true) :
    msg.size = atLargeBytesUsed t msg n + vdrBytesUsed alloc t msg n ∧
    (acquire alloc t msg n).2.remainingAtLargeBytes =
      t.remainingAtLargeBytes - atLargeBytesUsed t msg n ∧
    (acquire alloc t msg n).2.remainingVdrBytes =
      t.remainingVdrBytes - vdrBytesUsed alloc t msg n ∧
    (acquire alloc t msg n).2.nodeToVdrBytesUsed n =
      t.nodeToVdrBytesUsed n + vdrBytesUsed alloc t msg n := by
  have hA1 := atLargeBytesUsed_le_size t msg n
  have hA2 := atLargeBytesUsed_le_remaining t msg n
  have hV1 := vdrBytesUsed_le_remaining alloc t msg n
  have hV2 := vdrBytesUsed_le_needed alloc t msg n
  rw [wsub_of_le hA1] at hV2
  by_cases hc : wsub (wsub msg.size (atLargeBytesUsed t msg n))
      (vdrBytesUsed alloc t msg n) ≠ 0
  · simp [acquire, hbp, hc] at ht
  · push_neg at hc
    rw [wsub_of_le hA1, wsub_of_le hV2] at hc
    have hsize : msg.size = atLargeBytesUsed t msg n + vdrBytesUsed alloc t msg n := by
      omega
    have hVsize : vdrBytesUsed alloc t msg n ≤ msg.size := by omega
    refine ⟨hsize, ?_⟩
    have hwv : wadd (t.nodeToVdrBytesUsed n) (vdrBytesUsed alloc t msg n) =
        t.nodeToVdrBytesUsed n + vdrBytesUsed alloc t msg n :=
      wadd_of_lt (by omega)
    simp only [acquire, hbp, Bool.false_eq_true, if_false, wsub_of_le hA1,
      wsub_of_le hV2, hc, ne_eq, not_true_eq_false, if_false]
    by_cases hA0 : atLargeBytesUsed t msg n > 0 <;>
      by_cases hV0 : vdrBytesUsed alloc t msg n > 0 <;>
        simp [hA0, hV0, wsub_of_le hA2, wsub_of_le hV1, hwv] <;> omega

/-- C9: for a non-bypass outbound message, a failed Acquire leaves the
throttler state unchanged (the embedding is a total function, so the call
cannot block); and a Release matching a successful Acquire returns exactly
the message's byte count in total to the validator and at-large allocations,
restoring the sum of the remaining validator and at-large bytes to its value
before the Acquire.  The two 64-bit bound hypotheses state that the node's
tracked validator usage plus the message size, and the sum of the two
remaining allocations, fit in a `uint64`. -/
theorem outbound_acquire_release_exact (alloc : Nat → Nat)
    (t : OutboundThrottler) (msg : OutboundMessage) (n : Nat)
    (hbp : msg.bypassThrottling = false)
    (hsum : t.remainingVdrBytes + t.remainingAtLargeBytes < 2 ^ 64)
    (husers : t.nodeToVdrBytesUsed n + msg.size < 2 ^ 64) :
    ((acquire alloc t msg n).1 = false → (acquire alloc t msg n).2 = t) ∧
    ((acquire alloc t msg n).1 = true →
      (release (acquire alloc t msg n).2 msg n).remainingVdrBytes +
          (release (acquire alloc t msg n).2 msg n).remainingAtLargeBytes =
        (acquire alloc t msg n).2.remainingVdrBytes +
          (acquire alloc t msg n).2.remainingAtLargeBytes + msg.size ∧
      (release (acquire alloc t msg n).2 msg n).remainingVdrBytes +
          (release (acquire alloc t msg n).2 msg n).remainingAtLargeBytes =
        t.remainingVdrBytes + t.remainingAtLargeBytes) := by
  refine ⟨acquire_false_eq alloc t msg n, ?_⟩
  intro ht
  obtain ⟨hsize, hAL, hV, hU⟩ := acquire_true_fields alloc t msg n hbp husers ht
  set t1 := (acquire alloc t msg n).2 with ht1
  have hA2 := atLargeBytesUsed_le_remaining t msg n
  have hV1 := vdrBytesUsed_le_remaining alloc t msg n
  have hR1 : vdrBytesToReturn t1 msg n ≤ msg.size := min_le_left _ _
  have hR2 : vdrBytesUsed alloc t msg n ≤ vdrBytesToReturn t1 msg n := by
    rw [vdrBytesToReturn, hU]
    exact le_min (by omega) (Nat.le_add_left _ _)
  have hALR : atLargeBytesToReturn t1 msg n =
      msg.size - vdrBytesToReturn t1 msg n := by
    rw [atLargeBytesToReturn, wsub_of_le hR1]
  have hrel1 : (release t1 msg n).remainingVdrBytes =
      wadd t1.remainingVdrBytes (vdrBytesToReturn t1 msg n) := by
    simp [release, hbp]
  have hrel2 : (release t1 msg n).remainingAtLargeBytes =
      wadd t1.remainingAtLargeBytes (atLargeBytesToReturn t1 msg n) := by
    simp [release, hbp]
  have hb1 : t1.remainingVdrBytes + vdrBytesToReturn t1 msg n < 2 ^ 64 := by
    rw [hV]
    omega
  have hb2 : t1.remainingAtLargeBytes + atLargeBytesToReturn t1 msg n <
      2 ^ 64 := by
    rw [hAL, hALR]
    omega
  rw [hrel1, hrel2, wadd_of_lt hb1, wadd_of_lt hb2, hALR, hAL, hV]
  omega

/-- Concrete throttler used by the acquire/release witness. -/
def throttlerW : OutboundThrottler :=
  { maxVdrBytes := 100, remainingVdrBytes := 100, remainingAtLargeBytes := 50,
    nodeMaxAtLargeBytes := 40, nodeToVdrBytesUsed := fun _ => 0,
    nodeToAtLargeBytesUsed := fun _ => 0,
    validatorWeight := fun _ => some 1 }

/-- Concrete message used by the acquire/release witness. -/
def msgW : OutboundMessage := { bypassThrottling := false, size := 30 }

theorem outbound_acquire_release_exact_witness :
    msgW.bypassThrottling = false ∧
    throttlerW.remainingVdrBytes + throttlerW.remainingAtLargeBytes < 2 ^ 64 ∧
    throttlerW.nodeToVdrBytesUsed 0 + msgW.size < 2 ^ 64 ∧
    (((acquire (fun w => 100 * w) throttlerW msgW 0).1 = false →
        (acquire (fun w => 100 * w) throttlerW msgW 0).2 = throttlerW) ∧
      ((acquire (fun w => 100 * w) throttlerW msgW 0).1 = true →
        (release (acquire (fun w => 100 * w) throttlerW msgW 0).2 msgW
              0).remainingVdrBytes +
            (release (acquire (fun w => 100 * w) throttlerW msgW 0).2 msgW
              0).remainingAtLargeBytes =
          (acquire (fun w => 100 * w) throttlerW msgW 0).2.remainingVdrBytes +
            (acquire (fun w => 100 * w) throttlerW msgW
              0).2.remainingAtLargeBytes + msgW.size ∧
        (release (acquire (fun w => 100 * w) throttlerW msgW 0).2 msgW
              0).remainingVdrBytes +
            (release (acquire (fun w => 100 * w) throttlerW msgW 0).2 msgW
              0).remainingAtLargeBytes =
          throttlerW.remainingVdrBytes + throttlerW.remainingAtLargeBytes)) :=
  ⟨rfl, by decide, by decide,
    outbound_acquire_release_exact (fun w => 100 * w) throttlerW msgW 0 rfl
      (by decide) (by decide)⟩


/-! ## Stop-vertex verification (src/unnamed/part_003, `uniqueVertex.Verify`,
lines 245-367) -/

/-- Modelled from the spec: `ids.Set`, a set of IDs backed by a Go map, is
not in the provided source slice.  It is modelled as a duplicate-free list;
`setAdd` is `Set.Add` for one element. -/
def setAdd (s : List Nat) (x : Nat) : List Nat :=
  if x ∈ s then s else x :: s

/-- Builds an `ids.Set` from listed elements, as `NewSet` followed by
`Add(elems...)`. -/
def setOfList (l : List Nat) : List Nat :=
  l.foldl setAdd []

/-- Embedding of `ids.Set.Union`: adds every element of [t] to [s]. -/
def setUnion (s t : List Nat) : List Nat :=
  t.foldl setAdd s

/-- Embedding of `ids.Set.Equals`: the two sets hold the same elements. -/
def setEquals (s t : List Nat) : Bool :=
  (s.all fun x => decide (x ∈ t)) && (t.all fun x => decide (x ∈ s))

theorem mem_setAdd (s : List Nat) (x y : Nat) :
    y ∈ setAdd s x ↔ y = x ∨ y ∈ s := by
  unfold setAdd
  by_cases h : x ∈ s
  · simp only [if_pos h]
    constructor
    · exact Or.inr
    · rintro (rfl | hy)
      · exact h
      · exact hy
  · simp [if_neg h]

theorem setAdd_length (s : List Nat) (x : Nat) :
    s.length ≤ (setAdd s x).length := by
  unfold setAdd
  by_cases h : x ∈ s <;> simp [h]

theorem setUnion_length_le (s t : List Nat) :
    s.length ≤ (setUnion s t).length := by
  induction t generalizing s with
  | nil => exact le_refl _
  | cons d t ih => exact le_trans (setAdd_length s d) (ih (setAdd s d))

theorem setUnion_length_eq_iff (s t : List Nat) :
    (setUnion s t).length = s.length ↔ ∀ x ∈ t, x ∈ s := by
  induction t generalizing s with
  | nil => simp [setUnion]
  | cons d t ih =>
    have hstep : setUnion s (d :: t) = setUnion (setAdd s d) t := rfl
    by_cases hd : d ∈ s
    · have hadd : setAdd s d = s := if_pos hd
      rw [hstep, hadd, ih]
      simp [hd]
    · have hadd : setAdd s d = d :: s := if_neg hd
      constructor
      · intro h
        have hle := setUnion_length_le (d :: s) t
        rw [hstep, hadd] at h
        simp only [List.length_cons] at hle
        omega
      · intro h
        exact absurd (h d (List.mem_cons_self d t)) hd

theorem mem_setOfList (l : List Nat) (y : Nat) :
    y ∈ setOfList l ↔ y ∈ l := by
  have key : ∀ (l : List Nat) (s : List Nat) (y : Nat),
      y ∈ l.foldl setAdd s ↔ y ∈ s ∨ y ∈ l := by
    intro l
    induction l with
    | nil => simp
    | cons d t ih =>
      intro s y
      simp only [List.foldl_cons, ih, mem_setAdd, List.mem_cons]
      tauto
  simpa using key l [] y

/-- Errors of `uniqueVertex.Verify`.  `statelessVertexInvalid` stands for
whatever error the underlying `vertex.StatelessVertex.Verify` returned; the
other four are the errors declared at lines 235-240 of the source file. -/
inductive VerifyErr where
  | statelessVertexInvalid
  | stopVertexNotAllowedTimestamp
  | stopVertexAlreadyAccepted
  | unexpectedEdges
  | unexpectedDependencyStopVtx
deriving DecidableEq, Repr

/-- Environment read by `uniqueVertex.Verify`: for a vertex ID its status,
parent IDs, contained transaction IDs and stop-vertex flag, and whether its
stateless vertex verifies; for a transaction ID its status and the IDs of
the transactions it depends on; plus the serializer's accepted frontier
(`Edge()`), the wall clock (`time.Now`, or the test clock `vtx.time`), and
the activation time (`serializer.XChainMigrationTime`).  The environment is
total: every vertex and transaction the traversal reaches resolves, so the
retrieval errors of `Txs`, `Parents`, `Dependencies` and `getUniqueVertex`
do not arise. -/
structure VerifyEnv where
  status : Nat → Status
  parentIDs : Nat → List Nat
  vtxTxs : Nat → List Nat
  txDeps : Nat → List Nat
  txStatus : Nat → Status
  stopVertex : Nat → Bool
  statelessVerifyOk : Nat → Bool
  edge : List Nat
  now : Int
  xChainMigrationTime : Int

/-- Embedding of the BFS loop of `uniqueVertex.Verify` (lines 302-351):
pops the queue head; an Accepted vertex joins `acceptedFrontier` and the
path stops there; an unvisited non-Accepted vertex joins `visitedVtx` and
`transitivePaths` together with its transaction IDs, the non-Accepted
dependencies of those transactions join `dependencies`, and its parents are
enqueued.  The Go loop terminates because each vertex is visited at most
once; the embedding spends one unit of fuel per iteration and returns `none`
only on fuel exhaustion (unreachable once fuel exceeds the total number of
queue insertions). -/
def bfsLoop (env : VerifyEnv) :
    Nat → List Nat → List Nat → List Nat → List Nat → List Nat →
    Option (List Nat × List Nat × List Nat)
  | 0, _, _, _, _, _ => none
  | _ + 1, [], _, acceptedFrontier, transitivePaths, dependencies =>
    some (acceptedFrontier, transitivePaths, dependencies)
  | fuel + 1, cur :: queue, visitedVtx, acceptedFrontier, transitivePaths,
      dependencies =>
    if env.status cur = .Accepted then
      bfsLoop env fuel queue visitedVtx (setAdd acceptedFrontier cur)
        transitivePaths dependencies
    else if cur ∈ visitedVtx then
      bfsLoop env fuel queue visitedVtx acceptedFrontier transitivePaths
        dependencies
    else
      let visitedVtx := setAdd visitedVtx cur
      let transitivePaths := setAdd transitivePaths cur
      let transitivePaths :=
        (env.vtxTxs cur).foldl (fun s txID => setAdd s txID) transitivePaths
      let dependencies :=
        (env.vtxTxs cur).foldl
          (fun s txID =>
            (env.txDeps txID).foldl
              (fun s2 depID =>
                if env.txStatus depID ≠ .Accepted then setAdd s2 depID
                else s2)
              s)
          dependencies
      bfsLoop env fuel (queue ++ env.parentIDs cur) visitedVtx
        acceptedFrontier transitivePaths dependencies

/-- Embedding of `uniqueVertex.Verify` (lines 245-367): first the stateless
vertex's own Verify; for a stop vertex, the activation-time gate; then the
scan of the accepted frontier set, erroring if any frontier vertex is a stop
vertex; a non-stop vertex then passes, while a stop vertex runs the BFS and
checks that the Accepted boundary equals the frontier and that
`Union(dependencies)` does not grow `transitivePaths` (the source compares
`Len()` before and after the union).  Returns `none` only when the BFS runs
out of fuel. -/
def verify (env : VerifyEnv) (vtxID : Nat) (fuel : Nat) :
    Option (Except VerifyErr Unit) :=
  if env.statelessVerifyOk vtxID = false then
    some (.error .statelessVertexInvalid)
  else if env.stopVertex vtxID = true ∧ env.now < env.xChainMigrationTime then
    some (.error .stopVertexNotAllowedTimestamp)
  else
    let acceptedEdges := setOfList env.edge
    if acceptedEdges.any (fun i => env.stopVertex i) then
      some (.error .stopVertexAlreadyAccepted)
    else if env.stopVertex vtxID = false then some (.ok ())
    else
      match bfsLoop env fuel [vtxID] [] [] [] [] with
      | none => none
      | some (acceptedFrontier, transitivePaths, dependencies) =>
        if setEquals acceptedFrontier acceptedEdges = false then
          some (.error .unexpectedEdges)
        else if (setUnion transitivePaths dependencies).length ≠
            transitivePaths.length then
          some (.error .unexpectedDependencyStopVtx)
        else some (.ok ())

theorem setOfList_any (l : List Nat) (f : Nat → Bool) :
    (setOfList l).any f = true ↔ ∃ x ∈ l, f x = true := by
  rw [List.any_eq_true]
  constructor
  · rintro ⟨x, hx, hf⟩
    exact ⟨x, (mem_setOfList l x).mp hx, hf⟩
  · rintro ⟨x, hx, hf⟩
    exact ⟨x, (mem_setOfList l x).mpr hx, hf⟩

theorem setEquals_true_iff (s t : List Nat) :
    setEquals s t = true ↔ s.toFinset = t.toFinset := by
  simp only [setEquals, Bool.and_eq_true, List.all_eq_true, decide_eq_true_eq,
    Finset.ext_iff, List.mem_toFinset]
  constructor
  · rintro ⟨h1, h2⟩ a
    exact ⟨h1 a, h2 a⟩
  · intro h
    exact ⟨fun a ha => (h a).mp ha, fun a ha => (h a).mpr ha⟩

theorem setOfList_toFinset (l : List Nat) :
    (setOfList l).toFinset = l.toFinset := by
  ext a
  simp [List.mem_toFinset, mem_setOfList]

/-- C7: verifying a vertex flagged stop_vertex while the wall clock is
before the configured activation time (`XChainMigrationTime`) fails with
errStopVertexNotAllowedTimestamp, provided the underlying stateless vertex
verifies (that check runs first in the source).  The embedding of Verify is
a pure function of the environment — it writes nothing — which captures the
claim's "changes no state". -/
theorem verify_stop_vertex_timestamp (env : VerifyEnv) (v fuel : Nat)
    (hstop : env.stopVertex v = true)
    (hok : env.statelessVerifyOk v = true)
    (htime : env.now < env.xChainMigrationTime) :
    verify env v fuel = some (.error .stopVertexNotAllowedTimestamp) := by
  simp [verify, hok, hstop, htime]

/-- Concrete environment for the C7 witness: a stop vertex submitted at
time 1 with activation time 5. -/
def envTimestampW : VerifyEnv :=
  { status := fun _ => .Processing, parentIDs := fun _ => [],
    vtxTxs := fun _ => [], txDeps := fun _ => [],
    txStatus := fun _ => .Processing, stopVertex := fun _ => true,
    statelessVerifyOk := fun _ => true, edge := [],
    now := 1, xChainMigrationTime := 5 }

theorem verify_stop_vertex_timestamp_witness :
    envTimestampW.stopVertex 0 = true ∧
    envTimestampW.statelessVerifyOk 0 = true ∧
    envTimestampW.now < envTimestampW.xChainMigrationTime ∧
    verify envTimestampW 0 3 =
      some (.error .stopVertexNotAllowedTimestamp) :=
  ⟨rfl, rfl, by decide,
    verify_stop_vertex_timestamp envTimestampW 0 3 rfl rfl (by decide)⟩

/-- C10: whenever some vertex on the current accepted frontier is flagged
stop_vertex, Verify fails with errStopVertexAlreadyAccepted — for every
vertex being verified, whether or not it is itself a stop vertex — provided
the checks the source runs earlier pass: the stateless vertex verifies, and
a stop vertex is not also blocked by the activation-time gate. -/
theorem verify_stop_vertex_already_accepted (env : VerifyEnv) (v fuel : Nat)
    (hok : env.statelessVerifyOk v = true)
    (htime : env.stopVertex v = true → ¬ env.now < env.xChainMigrationTime)
    (hedge : ∃ e ∈ env.edge, env.stopVertex e = true) :
    verify env v fuel = some (.error .stopVertexAlreadyAccepted) := by
  have hany : (setOfList env.edge).any (fun i => env.stopVertex i) = true :=
    (setOfList_any env.edge _).mpr hedge
  by_cases hsv : env.stopVertex v = true
  · simp [verify, hok, hsv, htime hsv, hany]
  · simp [verify, hok, hsv, hany]

/-- Concrete environment for the C10 witness: the frontier vertex 1 is an
already-accepted stop vertex; the vertex 0 being verified is not a stop
vertex. -/
def envAlreadyW : VerifyEnv :=
  { status := fun i => if i = 1 then .Accepted else .Processing,
    parentIDs := fun _ => [], vtxTxs := fun _ => [],
    txDeps := fun _ => [], txStatus := fun _ => .Processing,
    stopVertex := fun i => i == 1, statelessVerifyOk := fun _ => true,
    edge := [1], now := 9, xChainMigrationTime := 5 }

theorem verify_stop_vertex_already_accepted_witness :
    envAlreadyW.statelessVerifyOk 0 = true ∧
    (envAlreadyW.stopVertex 0 = true →
      ¬ envAlreadyW.now < envAlreadyW.xChainMigrationTime) ∧
    (∃ e ∈ envAlreadyW.edge, envAlreadyW.stopVertex e = true) ∧
    verify envAlreadyW 0 3 = some (.error .stopVertexAlreadyAccepted) :=
  ⟨rfl, by decide, ⟨1, by decide, rfl⟩,
    verify_stop_vertex_already_accepted envAlreadyW 0 3 rfl (by decide)
      ⟨1, by decide, rfl⟩⟩

/-- C2 (amended): for a stop vertex that passes the earlier checks (its
stateless vertex verifies, the activation time has passed, no frontier
vertex is a stop vertex) and whose BFS completes with Accepted boundary set
[af], transitive paths [tp] and dependency set [dp]: Verify fails with
errUnexpectedEdges exactly when [af] differs as a set from the current
accepted frontier, and fails with errUnexpectedDependencyStopVtx exactly
when [af] equals the frontier AND some collected non-Accepted dependency
lies outside [tp] — the dependency check only runs once the frontier check
has passed. -/
theorem verify_stop_vertex_bfs_errors (env : VerifyEnv) (v fuel : Nat)
    (af tp dp : List Nat)
    (hstop : env.stopVertex v = true)
    (hok : env.statelessVerifyOk v = true)
    (htime : ¬ env.now < env.xChainMigrationTime)
    (hedge : ∀ e ∈ env.edge, env.stopVertex e = false)
    (hbfs : bfsLoop env fuel [v] [] [] [] [] = some (af, tp, dp)) :
    (verify env v fuel = some (.error .unexpectedEdges) ↔
      af.toFinset ≠ env.edge.toFinset) ∧
    (verify env v fuel = some (.error .unexpectedDependencyStopVtx) ↔
      af.toFinset = env.edge.toFinset ∧ ∃ i ∈ dp, i ∉ tp) := by
  have hany : (setOfList env.edge).any (fun i => env.stopVertex i) = false := by
    rw [Bool.eq_false_iff]
    intro hcontra
    obtain ⟨e, he, hs⟩ := (setOfList_any env.edge _).mp hcontra
    rw [hedge e he] at hs
    exact Bool.false_ne_true hs
  have hc2 : ¬(env.stopVertex v = true ∧ env.now < env.xChainMigrationTime) :=
    fun h => htime h.2
  have hequiv : setEquals af (setOfList env.edge) = true ↔
      af.toFinset = env.edge.toFinset := by
    rw [setEquals_true_iff, setOfList_toFinset]
  have hgrow : (setUnion tp dp).length ≠ tp.length ↔ ∃ i ∈ dp, i ∉ tp := by
    rw [Ne, setUnion_length_eq_iff]
    push_neg
    rfl
  simp only [verify, hok, hstop, htime, hany, hbfs, Bool.true_eq_false,
    if_false, hc2, Bool.false_eq_true]
  by_cases h1 : af.toFinset = env.edge.toFinset
  · have heq : setEquals af (setOfList env.edge) = true := hequiv.mpr h1
    by_cases h2 : ∃ i ∈ dp, i ∉ tp
    · have hcard := hgrow.mpr h2
      simp [heq, hcard, h1, h2]
    · have hcard : (setUnion tp dp).length = tp.length := by
        by_contra hne
        exact h2 (hgrow.mp hne)
      simp [heq, hcard, h1, h2]
  · have heq : setEquals af (setOfList env.edge) = false := by
      rw [Bool.eq_false_iff]
      intro hcontra
      exact h1 (hequiv.mp hcontra)
    simp [heq, h1]

/-- Concrete environment for the C2 counterexample and witness: vertex 0 is
a Processing stop vertex with no parents, carrying transaction 10 whose
dependency 20 is Processing and outside the closure; the accepted frontier
is the non-stop Accepted vertex 1, unreachable from vertex 0. -/
def envBfsW : VerifyEnv :=
  { status := fun i => if i = 1 then .Accepted else .Processing,
    parentIDs := fun _ => [],
    vtxTxs := fun i => if i = 0 then [10] else [],
    txDeps := fun t => if t = 10 then [20] else [],
    txStatus := fun _ => .Processing,
    stopVertex := fun i => i == 0,
    statelessVerifyOk := fun _ => true,
    edge := [1], now := 10, xChainMigrationTime := 0 }

/-- C2 counterexample: in `envBfsW` the BFS closure contains a transaction
(10) with a non-Accepted dependency (20) outside the closure, so by the
claim Verify should fail with errUnexpectedDependencyStopVtx; but the BFS
boundary (empty) also differs from the accepted frontier ({1}) and the
frontier comparison runs first, so Verify fails with errUnexpectedEdges
instead.  The claim's second "exactly when" is therefore false as stated. -/
theorem verify_c2_counterexample :
    bfsLoop envBfsW 5 [0] [] [] [] [] = some ([], [10, 0], [20]) ∧
    (∃ i ∈ [20], i ∉ [10, 0]) ∧
    verify envBfsW 0 5 = some (.error .unexpectedEdges) ∧
    verify envBfsW 0 5 ≠ some (.error .unexpectedDependencyStopVtx) := by
  refine ⟨by decide, by decide, by decide, by decide⟩

theorem verify_stop_vertex_bfs_errors_witness :
    envBfsW.stopVertex 0 = true ∧
    envBfsW.statelessVerifyOk 0 = true ∧
    ¬ envBfsW.now < envBfsW.xChainMigrationTime ∧
    (∀ e ∈ envBfsW.edge, envBfsW.stopVertex e = false) ∧
    bfsLoop envBfsW 5 [0] [] [] [] [] = some ([], [10, 0], [20]) ∧
    ((verify envBfsW 0 5 = some (.error .unexpectedEdges) ↔
        ([] : List Nat).toFinset ≠ envBfsW.edge.toFinset) ∧
      (verify envBfsW 0 5 = some (.error .unexpectedDependencyStopVtx) ↔
        ([] : List Nat).toFinset = envBfsW.edge.toFinset ∧
          ∃ i ∈ [20], i ∉ [10, 0])) :=
  ⟨rfl, rfl, by decide, by decide, by decide,
    verify_stop_vertex_bfs_errors envBfsW 0 5 [] [10, 0] [20] rfl rfl
      (by decide) (by decide) (by decide)⟩

/-! ## Unique-vertex cache, status refresh and Accept
(src/unnamed/part_003, `uniqueVertex`, lines 27-233) -/

/-- Embedding of `ids.Set.Remove` for one element (modelled from the spec
like the other `ids.Set` operations): drops the element from the
duplicate-free list. -/
def setRemove (s : List Nat) (x : Nat) : List Nat :=
  s.filter (fun y => y != x)

/-- One successful write against the serializer's persistence layer, for
tracing the order of `state.SetStatus`, `state.SetEdge` and
`versionDB.Commit` calls made by `uniqueVertex`. -/
inductive StoreOp where
  | setStatus (id : Nat) (s : Status)
  | setEdge (e : List Nat)
  | commit
deriving DecidableEq, Repr

/-- Which persistence primitives fail, the error oracle for `Accept`:
whether `state.SetStatus`, `state.SetEdge` and `versionDB.Commit` return a
non-nil error when called. -/
structure StoreFailures where
  setStatusFails : Bool
  setEdgeFails : Bool
  commitFails : Bool

/-- Embedding of `vertexState` (src/unnamed/part_003, lines 500-508), the
mutable cell shared by every handle of one vertex.  `hasVtx` models
`vtx != nil` (whether the inner stateless vertex is loaded), `hasParents`
models `parents != nil`; the cached `txs` are omitted, no claim reads
them. -/
structure VertexState where
  latest : Bool
  hasVtx : Bool
  status : Status
  hasParents : Bool
deriving DecidableEq, Repr

/-- State of a Go `&vertexState{}` allocation: all fields zero. -/
def VertexState.fresh : VertexState :=
  { latest := false, hasVtx := false, status := .Unknown, hasParents := false }

/-- Handle to a vertex: a `uniqueVertex` value.  `cell` is the `v` pointer —
`none` models `v == nil` (e.g. the parent handles built by `Parents`), and
`some c` refers to cell [c] of the world's heap, which may be shared with
other handles. -/
structure Handle where
  id : Nat
  cell : Option Nat
deriving DecidableEq, Repr

/-- World the `uniqueVertex` methods act on: the heap of `vertexState`
cells (with a bump allocator), the unique-vertex cache (vertex ID to the
cell of its cached canonical handle — modelled from the spec, §4.F: a cached
vertex has one canonical handle, a miss inserts the requesting handle), the
parent IDs carried by each vertex's inner stateless vertex, the serializer's
in-memory accepted frontier `edge`, the versioned store's staged (buffered)
and durable (committed) contents, the trace of successful persistence
operations, and which vertex bytes the persistent store holds
(`state.Vertex`). -/
structure VtxWorld where
  cells : Nat → VertexState
  nextCell : Nat
  canonicalCell : Nat → Option Nat
  parentIDs : Nat → List Nat
  edge : List Nat
  stagedStatus : Nat → Status
  stagedEdge : List Nat
  durableStatus : Nat → Status
  durableEdge : List Nat
  trace : List StoreOp
  hasStoredVtx : Nat → Bool

/-- Embedding of `uniqueVertex.shallowRefresh` (lines 102-123): allocate the
`v` cell if nil; return at once if `latest`; otherwise consult the cache
(`state.UniqueVertex`): on a miss this handle is inserted and becomes
canonical, taking its status from `state.Status` and setting `latest`; on a
hit the canonical handle's state is copied into this one (`*vtx = *latest`,
i.e. the handle now shares the canonical cell), restoring the previously
loaded inner vertex if the canonical has none (`vtx.v.vtx = prevVtx`). -/
def shallowRefresh (w : VtxWorld) (h : Handle) : VtxWorld × Handle :=
  let alloc :=
    match h.cell with
    | some c => (w, { h with cell := some c }, c)
    | none =>
      let c := w.nextCell
      ({ w with
          nextCell := w.nextCell + 1,
          cells := fun i => if i = c then VertexState.fresh else w.cells i },
        { h with cell := some c }, c)
  let w1 := alloc.1
  let h1 := alloc.2.1
  let c := alloc.2.2
  if (w1.cells c).latest then (w1, h1)
  else
    let prevHasVtx := (w1.cells c).hasVtx
    match w1.canonicalCell h1.id with
    | none =>
      let st := { w1.cells c with
        status := w1.stagedStatus h1.id, latest := true }
      ({ w1 with
          cells := fun i => if i = c then st else w1.cells i,
          canonicalCell := fun j =>
            if j = h1.id then some c else w1.canonicalCell j },
        h1)
    | some c2 =>
      let w2 :=
        if (w1.cells c2).hasVtx = false ∧ prevHasVtx = true then
          { w1 with cells := fun i =>
            if i = c2 then { w1.cells c2 with hasVtx := true }
            else w1.cells i }
        else w1
      (w2, { h1 with cell := some c2 })

/-- Embedding of `uniqueVertex.refresh` (lines 90-96): shallow refresh, then
load the inner vertex from the persistent store when it is missing but the
status says the vertex was fetched. -/
def refresh (w : VtxWorld) (h : Handle) : VtxWorld × Handle :=
  let r := shallowRefresh w h
  let w1 := r.1
  let h1 := r.2
  match h1.cell with
  | none => (w1, h1)
  | some c =>
    if (w1.cells c).hasVtx = false ∧ (w1.cells c).status.Fetched = true then
      ({ w1 with cells := fun i =>
          if i = c then { w1.cells c with hasVtx := w1.hasStoredVtx h1.id }
          else w1.cells i },
        h1)
    else (w1, h1)

/-- Embedding of `uniqueVertex.Status` (line 212): refresh, then read the
cell's status. -/
def handleStatus (w : VtxWorld) (h : Handle) : VtxWorld × Handle × Status :=
  let r := refresh w h
  match r.2.cell with
  | some c => (r.1, r.2, (r.1.cells c).status)
  | none => (r.1, r.2, .Unknown)

/-- Embedding of `uniqueVertex.Evict` (lines 125-131): clear the `latest`
bit and drop the cached parents so they can be collected. -/
def evict (w : VtxWorld) (h : Handle) : VtxWorld :=
  match h.cell with
  | none => w
  | some c =>
    { w with cells := fun i =>
        if i = c then { w.cells i with latest := false, hasParents := false }
        else w.cells i }

/-- Modelled from the spec (§4.F): eviction of a vertex from the bounded
cache removes its canonical handle from the cache and invokes that handle's
`Evict` callback. -/
def cacheEvict (w : VtxWorld) (id : Nat) : VtxWorld :=
  match w.canonicalCell id with
  | none => w
  | some c =>
    { w with
        canonicalCell := fun j => if j = id then none else w.canonicalCell j,
        cells := fun i =>
          if i = c then { w.cells i with latest := false, hasParents := false }
          else w.cells i }

/-- Embedding of `uniqueVertex.Parents` (lines 214-233): refresh; error when
the inner vertex is unavailable; otherwise materialize the parent handles
(observable here as `hasParents`) and return the parent IDs. -/
def parents (w : VtxWorld) (h : Handle) : VtxWorld × Handle × Option (List Nat) :=
  let r := refresh w h
  let w1 := r.1
  let h1 := r.2
  match h1.cell with
  | none => (w1, h1, none)
  | some c =>
    if (w1.cells c).hasVtx = false then (w1, h1, none)
    else
      ({ w1 with cells := fun i =>
          if i = c then { w1.cells c with hasParents := true }
          else w1.cells i },
        h1, some (w1.parentIDs h1.id))

/-- Embedding of `uniqueVertex.setStatus` (lines 159-166): shallow refresh;
nothing to do when the status already matches; otherwise the in-memory cell
is updated first and then `state.SetStatus` persists the record into the
versioned buffer — on its error the cell keeps the new status but nothing
was staged.  The third component is the returned error. -/
def setStatus (fails : StoreFailures) (w : VtxWorld) (h : Handle)
    (s : Status) : VtxWorld × Handle × Option Unit :=
  let r := shallowRefresh w h
  let w1 := r.1
  let h1 := r.2
  match h1.cell with
  | none => (w1, h1, none)
  | some c =>
    if (w1.cells c).status = s then (w1, h1, none)
    else
      let w2 := { w1 with cells := fun i =>
        if i = c then { w1.cells c with status := s } else w1.cells i }
      if fails.setStatusFails then (w2, h1, some ())
      else
        ({ w2 with
            stagedStatus := fun j => if j = h1.id then s else w2.stagedStatus j,
            trace := w2.trace ++ [.setStatus h1.id s] },
          h1, none)

/-- Embedding of `uniqueVertex.Accept` (lines 171-195): persist the
Accepted status, add the vertex to the in-memory frontier, remove every
parent from it, persist the new frontier with `state.SetEdge`, clear the
cached parents, and commit the versioned store; any non-nil error returns
immediately.  `Commit` copies the staged store contents to the durable
ones atomically. -/
def accept (fails : StoreFailures) (w : VtxWorld) (h : Handle) :
    VtxWorld × Handle × Option Unit :=
  let r := setStatus fails w h .Accepted
  let w1 := r.1
  let h1 := r.2.1
  match r.2.2 with
  | some e => (w1, h1, some e)
  | none =>
    let w2 := { w1 with edge := setAdd w1.edge h1.id }
    let p := parents w2 h1
    let w3 := p.1
    let h3 := p.2.1
    match p.2.2 with
    | none => (w3, h3, some ())
    | some pids =>
      let w4 := { w3 with edge := pids.foldl setRemove w3.edge }
      if fails.setEdgeFails then (w4, h3, some ())
      else
        let w5 := { w4 with
          stagedEdge := w4.edge,
          trace := w4.trace ++ [.setEdge w4.edge] }
        let w6 :=
          match h3.cell with
          | some c =>
            { w5 with cells := fun i =>
                if i = c then { w5.cells c with hasParents := false }
                else w5.cells i }
          | none => w5
        if fails.commitFails then (w6, h3, some ())
        else
          ({ w6 with
              durableStatus := w6.stagedStatus,
              durableEdge := w6.stagedEdge,
              trace := w6.trace ++ [.commit] },
            h3, none)

/-- Status a vertex ID authoritatively has right now: the status of its
cached canonical handle when one exists, else the persisted status record
(which the canonical handle would be loaded from). -/
def authoritativeStatus (w : VtxWorld) (id : Nat) : Status :=
  match w.canonicalCell id with
  | some c => (w.cells c).status
  | none => w.stagedStatus id

/-- Well-formedness of a live handle: a handle whose cell still has the
`latest` bit set must be the vertex's cached canonical handle (the only way
to clear `latest` is the cache's `Evict` callback, which also removes the
entry from the cache). -/
def handleWF (w : VtxWorld) (h : Handle) : Prop :=
  ∀ c, h.cell = some c → (w.cells c).latest = true →
    w.canonicalCell h.id = some c

/-- Well-formedness of the world: the cache only refers to allocated cells
(Go allocation never reuses live memory). -/
def worldWF (w : VtxWorld) : Prop :=
  ∀ id c, w.canonicalCell id = some c → c < w.nextCell

theorem shallowRefresh_status (w : VtxWorld) (h : Handle)
    (hw : worldWF w) (hh : handleWF w h) :
    ∃ c', (shallowRefresh w h).2.cell = some c' ∧
      ((shallowRefresh w h).1.cells c').status = authoritativeStatus w h.id := by
  match hc : h.cell with
  | some c =>
    by_cases hl : (w.cells c).latest = true
    · have hcan := hh c hc hl
      refine ⟨c, ?_, ?_⟩ <;>
        simp [shallowRefresh, hc, hl, authoritativeStatus, hcan]
    · match hcan : w.canonicalCell h.id with
      | none =>
        refine ⟨c, ?_, ?_⟩ <;>
          simp [shallowRefresh, hc, hl, authoritativeStatus, hcan]
      | some c2 =>
        by_cases hfix : (w.cells c2).hasVtx = false ∧ (w.cells c).hasVtx = true
        · refine ⟨c2, ?_, ?_⟩ <;>
            simp [shallowRefresh, hc, hl, authoritativeStatus, hcan, hfix]
        · refine ⟨c2, ?_, ?_⟩ <;>
            simp [shallowRefresh, hc, hl, authoritativeStatus, hcan, hfix]
  | none =>
    match hcan : w.canonicalCell h.id with
    | none =>
      refine ⟨w.nextCell, ?_, ?_⟩ <;>
        simp [shallowRefresh, hc, authoritativeStatus, hcan,
          VertexState.fresh]
    | some c2 =>
      have hlt : c2 ≠ w.nextCell := Nat.ne_of_lt (hw h.id c2 hcan)
      refine ⟨c2, ?_, ?_⟩ <;>
        simp [shallowRefresh, hc, authoritativeStatus, hcan,
          VertexState.fresh, hlt]

theorem refresh_status (w : VtxWorld) (h : Handle)
    (hw : worldWF w) (hh : handleWF w h) :
    ∃ c', (refresh w h).2.cell = some c' ∧
      ((refresh w h).1.cells c').status = authoritativeStatus w h.id := by
  obtain ⟨c', hcell, hst⟩ := shallowRefresh_status w h hw hh
  refine ⟨c', ?_, ?_⟩
  · simp only [refresh, hcell]
    split <;> simp [hcell]
  · simp only [refresh, hcell]
    split <;> simp [hst]

/-- C6: a status-observing operation (`Status`) on a live handle — in
particular a stale one, whose `latest` bit was cleared by `Evict` — first
refreshes from the canonical cached handle (or, absent one, from the
persisted status record) and returns the current authoritative status; hence
for a given vertex ID, all live handles observe the same status. -/
theorem status_stale_handle_authoritative (w : VtxWorld) (h : Handle)
    (hw : worldWF w) (hh : handleWF w h) :
    (handleStatus w h).2.2 = authoritativeStatus w h.id ∧
    ∀ h2 : Handle, handleWF w h2 → h2.id = h.id →
      (handleStatus w h2).2.2 = (handleStatus w h).2.2 := by
  obtain ⟨c', hcell, hst⟩ := refresh_status w h hw hh
  have h1 : (handleStatus w h).2.2 = authoritativeStatus w h.id := by
    simp only [handleStatus, hcell]
    exact hst
  refine ⟨h1, ?_⟩
  intro h2 hh2 hid
  obtain ⟨c2, hcell2, hst2⟩ := refresh_status w h2 hw hh2
  have hx : (handleStatus w h2).2.2 = authoritativeStatus w h2.id := by
    simp only [handleStatus, hcell2]
    exact hst2
  rw [hx, hid, h1]

/-- Concrete world for the C6 witness: vertex 7's canonical handle lives in
cell 0 with status Accepted; cell 1 is a stale copy (its `latest` bit was
cleared by an eviction) still showing Processing. -/
def wStaleW : VtxWorld :=
  { cells := fun i =>
      if i = 0 then
        { latest := true, hasVtx := true, status := .Accepted,
          hasParents := false }
      else if i = 1 then
        { latest := false, hasVtx := true, status := .Processing,
          hasParents := false }
      else VertexState.fresh,
    nextCell := 2,
    canonicalCell := fun j => if j = 7 then some 0 else none,
    parentIDs := fun _ => [], edge := [], stagedStatus := fun _ => .Accepted,
    stagedEdge := [], durableStatus := fun _ => .Accepted, durableEdge := [],
    trace := [], hasStoredVtx := fun _ => true }

/-- Stale handle of vertex 7 used by the C6 witness. -/
def hStaleW : Handle := { id := 7, cell := some 1 }

theorem status_stale_handle_authoritative_witness :
    worldWF wStaleW ∧ handleWF wStaleW hStaleW ∧
    ((handleStatus wStaleW hStaleW).2.2 =
        authoritativeStatus wStaleW hStaleW.id ∧
      ∀ h2 : Handle, handleWF wStaleW h2 → h2.id = hStaleW.id →
        (handleStatus wStaleW h2).2.2 = (handleStatus wStaleW hStaleW).2.2) := by
  have hw : worldWF wStaleW := by
    intro id c hcan
    by_cases hid : id = 7
    · simp [wStaleW, hid] at hcan
      simp only [wStaleW]
      omega
    · simp [wStaleW, hid] at hcan
  have hh : handleWF wStaleW hStaleW := by
    intro c hc hl
    simp [hStaleW] at hc
    subst hc
    simp [wStaleW] at hl
  exact ⟨hw, hh, status_stale_handle_authoritative wStaleW hStaleW hw hh⟩

theorem mem_setRemove (s : List Nat) (d x : Nat) :
    x ∈ setRemove s d ↔ x ∈ s ∧ x ≠ d := by
  simp [setRemove, List.mem_filter]

theorem mem_foldl_setRemove (l s : List Nat) (x : Nat) :
    x ∈ l.foldl setRemove s ↔ x ∈ s ∧ x ∉ l := by
  induction l generalizing s with
  | nil => simp
  | cons d t ih =>
    simp only [List.foldl_cons, ih, mem_setRemove, List.mem_cons]
    tauto

/-- C1: `uniqueVertex.Accept` on a Processing vertex with a loaded inner
vertex first persists the Accepted status (`state.SetStatus`), then updates
the in-memory accepted frontier by inserting the vertex's ID and removing
the ID of every parent, then persists the new frontier (`state.SetEdge`) and
commits the versioned store exactly once — the successful-write trace is
exactly SetStatus, SetEdge, Commit in that order — and the commit
atomically moves the staged records to the durable store.  A non-nil error
from SetStatus, SetEdge or Commit returns immediately: later writes are
absent from the trace and the durable store is unchanged. -/
theorem accept_order_atomic (fails : StoreFailures) (w : VtxWorld)
    (h : Handle) (c : Nat)
    (hc : h.cell = some c)
    (hl : (w.cells c).latest = true)
    (hst : (w.cells c).status = .Processing)
    (hv : (w.cells c).hasVtx = true) :
    (fails.setStatusFails = false → fails.setEdgeFails = false →
      fails.commitFails = false →
      (accept fails w h).2.2 = none ∧
      (accept fails w h).1.trace = w.trace ++
        [.setStatus h.id .Accepted,
         .setEdge ((w.parentIDs h.id).foldl setRemove (setAdd w.edge h.id)),
         .commit] ∧
      (accept fails w h).1.edge =
        (w.parentIDs h.id).foldl setRemove (setAdd w.edge h.id) ∧
      (accept fails w h).1.durableEdge =
        (w.parentIDs h.id).foldl setRemove (setAdd w.edge h.id) ∧
      (accept fails w h).1.durableStatus h.id = .Accepted ∧
      (∀ x, x ∈ (accept fails w h).1.edge ↔
        ((x = h.id ∨ x ∈ w.edge) ∧ x ∉ w.parentIDs h.id))) ∧
    (fails.setStatusFails = true →
      (accept fails w h).2.2 = some () ∧
      (accept fails w h).1.trace = w.trace ∧
      (accept fails w h).1.stagedStatus = w.stagedStatus ∧
      (accept fails w h).1.stagedEdge = w.stagedEdge ∧
      (accept fails w h).1.durableStatus = w.durableStatus ∧
      (accept fails w h).1.durableEdge = w.durableEdge) ∧
    (fails.setStatusFails = false → fails.setEdgeFails = true →
      (accept fails w h).2.2 = some () ∧
      (accept fails w h).1.trace = w.trace ++ [.setStatus h.id .Accepted] ∧
      (accept fails w h).1.stagedEdge = w.stagedEdge ∧
      (accept fails w h).1.durableStatus = w.durableStatus ∧
      (accept fails w h).1.durableEdge = w.durableEdge) ∧
    (fails.setStatusFails = false → fails.setEdgeFails = false →
      fails.commitFails = true →
      (accept fails w h).2.2 = some () ∧
      (accept fails w h).1.trace = w.trace ++
        [.setStatus h.id .Accepted,
         .setEdge ((w.parentIDs h.id).foldl setRemove (setAdd w.edge h.id))] ∧
      (accept fails w h).1.durableStatus = w.durableStatus ∧
      (accept fails w h).1.durableEdge = w.durableEdge) := by
  obtain ⟨sS, sE, cF⟩ := fails
  have hne : (w.cells c).status ≠ .Accepted := by
    rw [hst]
    exact fun hcon => Status.noConfusion hcon
  refine ⟨?_, ?_, ?_, ?_⟩
  · rintro rfl rfl rfl
    refine ⟨?_, ?_, ?_, ?_, ?_, ?_⟩ <;>
      simp [accept, setStatus, parents, refresh, shallowRefresh, hc, hl, hne,
        hv, hst, mem_foldl_setRemove, mem_setAdd]
  · rintro rfl
    refine ⟨?_, ?_, ?_, ?_, ?_, ?_⟩ <;>
      simp [accept, setStatus, parents, refresh, shallowRefresh, hc, hl, hne,
        hv, hst]
  · rintro rfl rfl
    refine ⟨?_, ?_, ?_, ?_, ?_⟩ <;>
      simp [accept, setStatus, parents, refresh, shallowRefresh, hc, hl, hne,
        hv, hst]
  · rintro rfl rfl rfl
    refine ⟨?_, ?_, ?_, ?_⟩ <;>
      simp [accept, setStatus, parents, refresh, shallowRefresh, hc, hl, hne,
        hv, hst]

/-- Concrete world for the C1 witness: vertex 5 is Processing, canonical in
cell 0, with one parent 3 currently on the frontier. -/
def wAcceptW : VtxWorld :=
  { cells := fun i =>
      if i = 0 then
        { latest := true, hasVtx := true, status := .Processing,
          hasParents := true }
      else VertexState.fresh,
    nextCell := 1,
    canonicalCell := fun j => if j = 5 then some 0 else none,
    parentIDs := fun j => if j = 5 then [3] else [],
    edge := [3], stagedStatus := fun _ => .Processing, stagedEdge := [3],
    durableStatus := fun _ => .Processing, durableEdge := [3],
    trace := [], hasStoredVtx := fun _ => true }

/-- Handle of vertex 5 used by the C1 witness. -/
def hAcceptW : Handle := { id := 5, cell := some 0 }

/-- Store oracle with no failures, used by the C1 witness. -/
def failsNoneW : StoreFailures :=
  { setStatusFails := false, setEdgeFails := false, commitFails := false }

theorem accept_order_atomic_witness :
    hAcceptW.cell = some 0 ∧
    (wAcceptW.cells 0).latest = true ∧
    (wAcceptW.cells 0).status = .Processing ∧
    (wAcceptW.cells 0).hasVtx = true ∧
    ((failsNoneW.setStatusFails = false → failsNoneW.setEdgeFails = false →
      failsNoneW.commitFails = false →
      (accept failsNoneW wAcceptW hAcceptW).2.2 = none ∧
      (accept failsNoneW wAcceptW hAcceptW).1.trace = wAcceptW.trace ++
        [.setStatus hAcceptW.id .Accepted,
         .setEdge ((wAcceptW.parentIDs hAcceptW.id).foldl setRemove
           (setAdd wAcceptW.edge hAcceptW.id)),
         .commit] ∧
      (accept failsNoneW wAcceptW hAcceptW).1.edge =
        (wAcceptW.parentIDs hAcceptW.id).foldl setRemove
          (setAdd wAcceptW.edge hAcceptW.id) ∧
      (accept failsNoneW wAcceptW hAcceptW).1.durableEdge =
        (wAcceptW.parentIDs hAcceptW.id).foldl setRemove
          (setAdd wAcceptW.edge hAcceptW.id) ∧
      (accept failsNoneW wAcceptW hAcceptW).1.durableStatus hAcceptW.id =
        .Accepted ∧
      (∀ x, x ∈ (accept failsNoneW wAcceptW hAcceptW).1.edge ↔
        ((x = hAcceptW.id ∨ x ∈ wAcceptW.edge) ∧
          x ∉ wAcceptW.parentIDs hAcceptW.id))) ∧
    (failsNoneW.setStatusFails = true →
      (accept failsNoneW wAcceptW hAcceptW).2.2 = some () ∧
      (accept failsNoneW wAcceptW hAcceptW).1.trace = wAcceptW.trace ∧
      (accept failsNoneW wAcceptW hAcceptW).1.stagedStatus =
        wAcceptW.stagedStatus ∧
      (accept failsNoneW wAcceptW hAcceptW).1.stagedEdge =
        wAcceptW.stagedEdge ∧
      (accept failsNoneW wAcceptW hAcceptW).1.durableStatus =
        wAcceptW.durableStatus ∧
      (accept failsNoneW wAcceptW hAcceptW).1.durableEdge =
        wAcceptW.durableEdge) ∧
    (failsNoneW.setStatusFails = false → failsNoneW.setEdgeFails = true →
      (accept failsNoneW wAcceptW hAcceptW).2.2 = some () ∧
      (accept failsNoneW wAcceptW hAcceptW).1.trace = wAcceptW.trace ++
        [.setStatus hAcceptW.id .Accepted] ∧
      (accept failsNoneW wAcceptW hAcceptW).1.stagedEdge =
        wAcceptW.stagedEdge ∧
      (accept failsNoneW wAcceptW hAcceptW).1.durableStatus =
        wAcceptW.durableStatus ∧
      (accept failsNoneW wAcceptW hAcceptW).1.durableEdge =
        wAcceptW.durableEdge) ∧
    (failsNoneW.setStatusFails = false → failsNoneW.setEdgeFails = false →
      failsNoneW.commitFails = true →
      (accept failsNoneW wAcceptW hAcceptW).2.2 = some () ∧
      (accept failsNoneW wAcceptW hAcceptW).1.trace = wAcceptW.trace ++
        [.setStatus hAcceptW.id .Accepted,
         .setEdge ((wAcceptW.parentIDs hAcceptW.id).foldl setRemove
           (setAdd wAcceptW.edge hAcceptW.id))] ∧
      (accept failsNoneW wAcceptW hAcceptW).1.durableStatus =
        wAcceptW.durableStatus ∧
      (accept failsNoneW wAcceptW hAcceptW).1.durableEdge =
        wAcceptW.durableEdge)) :=
  ⟨rfl, rfl, rfl, rfl,
    accept_order_atomic failsNoneW wAcceptW hAcceptW 0 rfl rfl rfl rfl⟩
end Flare
